import Mathlib

/-!
Verification development for the hotel_scanner repository.

Shallow embedding of the scrape-and-schedule engine:
* `app/utils/scraper_helpers.py` — `PriceParser.parse_price_text`,
  `DataValidator.is_valid_price`;
* `app/services/enhanced_scraper.py` — `_safe_get_page` (tenacity retry),
  `scrape_single_request`, `scrape_with_concurrency`, `_save_results_to_db`;
* `app/services/scraper_service.py` — `_save_results_to_db` (single commit);
* `app/services/scheduler_service.py` — `schedule_price_check`, `job_wrapper`,
  `remove_scheduled_job`;
* `app/utils/monitoring.py` — `AlertManager._send_alert`.

Machine text is modelled as `List Char` / `String`, amounts as `ℚ`, the
database as an explicit store value, and environmental nondeterminism
(page-load outcomes, commit outcomes) as explicit parameters.
-/

set_option maxRecDepth 8192

namespace HotelScanner

/-! ### Character classes of the Python regexes used by `PriceParser`
(ASCII fragment; the theorems about all inputs restrict to ASCII text,
where these classes coincide with Python's `\s` and `\d`). -/

/-- Python regex class `\s` on ASCII characters: space, tab, newline,
carriage return, vertical tab, form feed. -/
def isPySpace (c : Char) : Bool :=
  c = ' ' || c = '\t' || c = '\n' || c = '\r' || c = Char.ofNat 11 || c = Char.ofNat 12

/-- Python regex class `\d` on ASCII characters. -/
def isDig (c : Char) : Bool := c.isDigit

/-- The regex class `[\d,]` of `PriceParser`'s number pattern. -/
def isDigComma (c : Char) : Bool := c.isDigit || c = ','

/-- Python `pattern in text` (substring containment) on character lists. -/
def hasSub (pat : List Char) : List Char → Bool
  | [] => pat.isEmpty
  | c :: t => pat.isPrefixOf (c :: t) || hasSub pat t

/-- Helper for `replDrop`, with fuel bounding the number of scan steps. -/
def replDropAux (pat : List Char) : ℕ → List Char → List Char
  | _, [] => []
  | 0, l => l
  | fuel + 1, c :: t =>
    if pat ≠ [] ∧ pat.isPrefixOf (c :: t) then replDropAux pat fuel ((c :: t).drop pat.length)
    else c :: replDropAux pat fuel t

/-- Python `text.replace(pat, '')`: drop every left-to-right non-overlapping
occurrence of the (non-empty) pattern `pat`. -/
def replDrop (pat l : List Char) : List Char := replDropAux pat l.length l

/-- Greedy match of the regex `[\d,]+\.?\d*` anchored at the head of `l`
(meaningful when the head is a digit or a comma). -/
def matchNumAt (l : List Char) : List Char :=
  let run := l.takeWhile isDigComma
  let rest := l.drop run.length
  if rest.head? = some '.' then run ++ '.' :: rest.tail.takeWhile isDig
  else run

/-- Python `re.search(r'[\d,]+\.?\d*', text)`: leftmost match position,
then greedy. -/
def searchNum : List Char → Option (List Char)
  | [] => none
  | c :: t => if isDigComma c then some (matchNumAt (c :: t)) else searchNum t

/-- Value of a digit string read in base 10. -/
def digitsVal (l : List Char) : ℕ := l.foldl (fun a c => 10 * a + (c.toNat - 48)) 0

/-- Python `float(s)` on strings of the shape `digits* ('.' digits*)?`
(the only shape `parse_price_text` feeds it): fails on the empty string and
on a bare dot, as `float` raises `ValueError` there. -/
def pyFloat (l : List Char) : Option ℚ :=
  let intPart := l.takeWhile isDig
  let rest := l.drop intPart.length
  if rest.isEmpty then
    if intPart.isEmpty then none else some (digitsVal intPart : ℚ)
  else if rest.head? = some '.' ∧ rest.tail.all isDig then
    if intPart.isEmpty && rest.tail.isEmpty then none
    else some ((digitsVal intPart : ℚ) + (digitsVal rest.tail : ℚ) / (10 : ℚ) ^ rest.tail.length)
  else none

/-- `PriceParser.CURRENCY_SYMBOLS`, in the source dictionary's insertion
order, which is the order `parse_price_text` scans it in. -/
def CURRENCY_SYMBOLS : List (String × String) :=
  [("NT$", "TWD"), ("TWD", "TWD"), ("台幣", "TWD"),
   ("$", "USD"), ("USD", "USD"), ("美元", "USD"),
   ("€", "EUR"), ("EUR", "EUR"), ("歐元", "EUR"),
   ("£", "GBP"), ("GBP", "GBP"), ("英鎊", "GBP"),
   ("¥", "JPY"), ("JPY", "JPY"), ("日元", "JPY"),
   ("元", "CNY"), ("CNY", "CNY"), ("人民幣", "CNY")]

/-- The `for symbol, curr in cls.CURRENCY_SYMBOLS.items()` scan with `break`
on the first symbol contained in the cleaned text. -/
def findSymbol : List (String × String) → List Char → Option (String × String)
  | [], _ => none
  | (sym, cur) :: rest, l => if hasSub sym.data l then some (sym, cur) else findSymbol rest l

/-- `PriceParser.parse_price_text`: strip whitespace, scan the currency table
in order and erase the first matching symbol, extract the first
`[\d,]+\.?\d*` token, strip commas, convert with `float`.  Any failure
(no match, or `float` raising) yields `(None, 'TWD')`. -/
def parse_price_text (price_text : String) : Option ℚ × String :=
  if price_text.data.isEmpty then (none, "TWD")
  else
    let cleaned := price_text.data.filter (fun c => !(isPySpace c))
    let step :=
      match findSymbol CURRENCY_SYMBOLS cleaned with
      | some (sym, cur) => (replDrop sym.data cleaned, cur)
      | none => (cleaned, "TWD")
    match searchNum step.1 with
    | some m =>
      match pyFloat (m.filter (fun c => c ≠ ',')) with
      | some v => (some v, step.2)
      | none => (none, "TWD")
    | none => (none, "TWD")

/-- Modelled from the spec (refinement target for the matching order):
"scan for any of a fixed currency-symbol/code/localized-name table
(longest-match first)" — the table entry of maximal symbol length occurring
in the whitespace-stripped text, defaulting to the home currency. -/
def longestSymbolIn (l : List Char) : Option (String × String) :=
  (CURRENCY_SYMBOLS.filter (fun p => hasSub p.1.data l)).foldl
    (fun best p =>
      match best with
      | none => some p
      | some q => if p.1.length > q.1.length then some p else some q) none

/-- Modelled from the spec: the currency code the spec's longest-match-first
rule predicts for a price text. -/
def spec_longest_first_currency (price_text : String) : String :=
  match longestSymbolIn (price_text.data.filter (fun c => !(isPySpace c))) with
  | some p => p.2
  | none => "TWD"

/-- `DataValidator.is_valid_price`'s per-currency sanity bands
(`price_ranges`); `none` as upper bound models `float('inf')`, the default
band being `(0, float('inf'))`. -/
def price_ranges : List (String × ℚ × Option ℚ) :=
  [("TWD", 500, some 50000), ("USD", 20, some 2000), ("EUR", 20, some 2000),
   ("GBP", 20, some 2000), ("JPY", 2000, some 200000)]

/-- `DataValidator.is_valid_price`: reject non-positive amounts, then check
the per-currency band, defaulting to `(0, float('inf'))` for currencies
not in the table. -/
def is_valid_price (price : ℚ) (currency : String) : Bool :=
  if price ≤ 0 then false
  else
    let band := (price_ranges.lookup currency).getD (0, none)
    decide (band.1 ≤ price) &&
      (match band.2 with
       | some mx => decide (price ≤ mx)
       | none => true)

/-! ### Page fetch retry (`_safe_get_page` with its tenacity decorator)

Both `EnhancedScraperService._safe_get_page` and
`ScraperService._safe_get_page` carry
`@retry(stop=stop_after_attempt(3), retry=retry_if_exception_type((TimeoutException, WebDriverException)))`
around a body whose `try`/`except` already catches `TimeoutException` and
every other `Exception`, returning `False`.  The environment of one call is
a function from the attempt index to the page-load outcome. -/

/-- Outcome of one underlying page load (`driver.get` plus the readiness
wait) as seen from inside the `try` block. -/
inductive PageOutcome
  | ok
  | timeout
  | webdriverErr
  | otherErr
deriving DecidableEq

/-- Python exception classes relevant to the retry predicate. -/
inductive PyExc
  | timeoutExc
  | webdriverExc
  | otherExc
deriving DecidableEq

/-- `retry_if_exception_type((TimeoutException, WebDriverException))`. -/
def isTransientExc : PyExc → Bool
  | .timeoutExc => true
  | .webdriverExc => true
  | .otherExc => false

/-- The body of `_safe_get_page` on one attempt: the internal
`except TimeoutException: return False` and `except Exception: return False`
clauses turn every page-load failure into a normal `False` return, so the
body never lets an exception escape. -/
def safeGetPageBody (o : PageOutcome) : Except PyExc Bool :=
  match o with
  | .ok => .ok true
  | .timeout => .ok false
  | .webdriverErr => .ok false
  | .otherErr => .ok false

/-- The tenacity retry loop: `fuel` is the number of retries still allowed
(`stop_after_attempt(3)` means initial fuel 2), `k` the number of attempts
already made.  It re-invokes the wrapped callable only when the callable
raised an exception matching the retry predicate; a normal return value
always ends the loop.  Returns the final result and the attempt count. -/
def tenacityLoop (body : ℕ → Except PyExc Bool) : ℕ → ℕ → Except PyExc Bool × ℕ
  | 0, k => (body k, k + 1)
  | fuel + 1, k =>
    match body k with
    | .ok v => (.ok v, k + 1)
    | .error e => if isTransientExc e then tenacityLoop body fuel (k + 1) else (.error e, k + 1)

/-- `_safe_get_page` as invoked once: the decorated body run under the
tenacity loop with `stop_after_attempt(3)`. -/
def safe_get_page (env : ℕ → PageOutcome) : Except PyExc Bool × ℕ :=
  tenacityLoop (fun k => safeGetPageBody (env k)) 2 0

/-! ### Job registry (`scheduler_service.py`)

APScheduler's job store keyed by job id is modelled as an association list;
well-formed stores have pairwise distinct ids. -/

/-- The data of one APScheduler job this service cares about: its interval
trigger in hours. -/
structure JobRec where
  interval_hours : ℕ
deriving DecidableEq

/-- The scheduler's job store. -/
abbrev Registry := List (String × JobRec)

/-- `job_id = f'crawl_request_{search_request_id}'`. -/
def job_id_for (search_request_id : ℕ) : String :=
  "crawl_request_" ++ toString search_request_id

/-- `scheduler.get_job(job_id)`. -/
def get_job (reg : Registry) (jid : String) : Option JobRec := reg.lookup jid

/-- `existing_job.reschedule(trigger='interval', hours=interval_hours)`:
replace the trigger of the job with that id, in place. -/
def reschedule (reg : Registry) (jid : String) (hours : ℕ) : Registry :=
  reg.map (fun p => if p.1 = jid then (p.1, JobRec.mk hours) else p)

/-- `scheduler.add_job(..., id=job_id, ..., replace_existing=True)`. -/
def add_job (reg : Registry) (jid : String) (hours : ℕ) : Registry :=
  (reg.filter (fun p => p.1 ≠ jid)) ++ [(jid, JobRec.mk hours)]

/-- `schedule_price_check(search_request_id)` (with `run_now=False`, its
default): the interval comes from the configuration read at call time. -/
def schedule_price_check (cfg_interval_hours : ℕ) (search_request_id : ℕ)
    (reg : Registry) : Registry :=
  let jid := job_id_for search_request_id
  match get_job reg jid with
  | some _ => reschedule reg jid cfg_interval_hours
  | none => add_job reg jid cfg_interval_hours

/-- `remove_scheduled_job(search_request_id)`: remove the job if present,
no-op otherwise (and its `try`/`except` swallows scheduler errors). -/
def remove_scheduled_job (search_request_id : ℕ) (reg : Registry) : Registry :=
  let jid := job_id_for search_request_id
  match get_job reg jid with
  | some _ => reg.filter (fun p => p.1 ≠ jid)
  | none => reg

/-- `job_wrapper(search_request_id)` firing once.  `request` is what
`db.session.get(SearchRequest, id)` resolves: `none` when the row is gone,
`some tracking` otherwise.  Returns the registry afterwards and whether the
scrape was invoked; the scrape call itself sits in a `try`/`except`, so a
scrape failure never escapes the wrapper (the function is total). -/
def job_wrapper (search_request_id : ℕ) (request : Option Bool)
    (reg : Registry) : Registry × Bool :=
  match request with
  | some true => (reg, true)
  | none => (remove_scheduled_job search_request_id reg, false)
  | some false => (reg, false)

/-! ### Alert manager (`monitoring.py`, `AlertManager._send_alert`) -/

/-- One alert record as appended to `alert_history` and handed to
`_send_notification`. -/
structure Alert where
  type : String
  message : String
  site_name : String
  time : ℚ
deriving DecidableEq

/-- `AlertManager`'s mutable pieces: `last_alert_times`,
`alert_history` (a `deque(maxlen=100)`) and the stream of alerts handed to
`_send_notification` (dispatch is best-effort and cannot fail the caller). -/
structure AlertState where
  last_alert_times : List (String × ℚ)
  alert_history : List Alert
  notified : List Alert
deriving DecidableEq

/-- `deque(maxlen=n).append`: drop from the left once the cap is exceeded. -/
def pushMax (n : ℕ) (a : α) (l : List α) : List α :=
  let l' := l ++ [a]
  if n < l'.length then l'.drop (l'.length - n) else l'

/-- Python dict assignment `d[k] = v` on an association list. -/
def upsert (k : String) (v : ℚ) (l : List (String × ℚ)) : List (String × ℚ) :=
  if (l.lookup k).isSome then l.map (fun p => if p.1 = k then (k, v) else p)
  else l ++ [(k, v)]

/-- `AlertManager.min_alert_interval`. -/
def min_alert_interval : ℚ := 300

/-- `AlertManager._send_alert(alert_type, message, site_name, current_time)`:
suppressed when an alert with the same `f"{alert_type}_{site_name}"` key was
recorded less than `min_alert_interval` ago (absent keys default to 0);
otherwise records the time, appends to the bounded history and dispatches. -/
def send_alert (alert_type message site_name : String) (current_time : ℚ)
    (s : AlertState) : AlertState :=
  let alert_key := alert_type ++ "_" ++ site_name
  let last_alert_time := (s.last_alert_times.lookup alert_key).getD 0
  if current_time - last_alert_time < min_alert_interval then s
  else
    { last_alert_times := upsert alert_key current_time s.last_alert_times
      alert_history := pushMax 100 (Alert.mk alert_type message site_name current_time) s.alert_history
      notified := s.notified ++ [Alert.mk alert_type message site_name current_time] }

/-! ### Orchestrator and persistence (`enhanced_scraper.py`, `scraper_service.py`) -/

/-- `ScrapingResult` (the fields the orchestrator and persistence touch). -/
structure ScrapingResult where
  hotel_name : String
  price : ℚ
  currency : String
  source_site : String
  details_url : String
deriving DecidableEq

/-- One persisted `HotelPrice` row. -/
structure HotelPrice where
  search_request_id : ℕ
  hotel_name : String
  price : ℚ
  currency : String
  source_site : String
  details_url : String
  crawl_timestamp : ℕ
deriving DecidableEq

/-- The external store: committed `HotelPrice` rows and the request's
`last_crawled_at` column. -/
structure Store where
  observations : List HotelPrice
  last_crawled_at : Option ℕ
deriving DecidableEq

/-- The row built for one `ScrapingResult`. -/
def toHotelPrice (reqId now : ℕ) (r : ScrapingResult) : HotelPrice :=
  HotelPrice.mk reqId r.hotel_name r.price r.currency r.source_site r.details_url now

/-- `results[i:i + batch_size]` slicing of the batch loop, fuelled by the
list length (sufficient whenever `0 < n`). -/
def chunkAux (n : ℕ) : ℕ → List α → List (List α)
  | _, [] => []
  | 0, l => [l]
  | fuel + 1, l => l.take n :: chunkAux n fuel (l.drop n)

/-- The list of batches `_save_results_to_db` commits, in order. -/
def chunkList (n : ℕ) (l : List α) : List (List α) := chunkAux n l.length l

/-- The per-batch `db.session.add` + `db.session.commit()` loop.  `commitOk`
says whether the k-th `commit()` call of this save succeeds.  A failed
commit leaves the committed rows in place, rolls back only the pending
batch, and raises.  Returns the store, whether an exception was raised, and
the number of commits performed. -/
def commitChunks (reqId now : ℕ) (commitOk : ℕ → Bool) :
    List (List ScrapingResult) → ℕ → Store → Store × Bool × ℕ
  | [], k, st => (st, false, k)
  | c :: rest, k, st =>
    if commitOk k then
      commitChunks reqId now commitOk rest (k + 1)
        (Store.mk (st.observations ++ c.map (toHotelPrice reqId now)) st.last_crawled_at)
    else (st, true, k)

/-- `EnhancedScraperService._save_results_to_db`: commit the results in
batches of `batch_size`, then set `last_crawled_at` and commit once more;
on any commit failure, roll back the pending batch, log, and re-raise.
Returns the store and whether the call raised. -/
def save_results_to_db (batch_size reqId now : ℕ) (results : List ScrapingResult)
    (commitOk : ℕ → Bool) (st : Store) : Store × Bool :=
  let step := commitChunks reqId now commitOk (chunkList batch_size results) 0 st
  if step.2.1 then (step.1, true)
  else if commitOk step.2.2 then (Store.mk step.1.observations (some now), false)
  else (step.1, true)

/-- `ScraperService._save_results_to_db`: add every row and the
`last_crawled_at` update, then a single `db.session.commit()`; a failure
rolls everything back and re-raises. -/
def save_results_to_db_basic (reqId now : ℕ) (results : List ScrapingResult)
    (commitOk : Bool) (st : Store) : Store × Bool :=
  if commitOk then
    (Store.mk (st.observations ++ results.map (toHotelPrice reqId now)) (some now), false)
  else (st, true)

/-- What `_scrape_site_enhanced` does for one site in this run: return a
candidate list, or raise (the raise is caught by the per-site `except` in
`scrape_single_request`). -/
inductive SiteOutcome
  | ok (results : List ScrapingResult)
  | raise

/-- One configured target site together with its outcome in this run. -/
structure SiteRun where
  enabled : Bool
  outcome : SiteOutcome

/-- The site loop of `scrape_single_request`: skip disabled sites, extend
`all_results` on success, catch-log-continue when a site raises. -/
def collectSiteResults : List SiteRun → List ScrapingResult
  | [] => []
  | s :: rest =>
    if s.enabled then
      (match s.outcome with
       | .ok results => results
       | .raise => []) ++ collectSiteResults rest
    else collectSiteResults rest

/-- One tracked request as the orchestrator sees it in this run: its id,
whether `get_webdriver` succeeds, its sites with their outcomes, and the
commit outcomes of its save. -/
structure RequestRun where
  id : ℕ
  driverOk : Bool
  sites : List SiteRun
  commitOk : ℕ → Bool

/-- `EnhancedScraperService.scrape_single_request`: no driver means an empty
result; otherwise every enabled site is attempted (per-site failures are
caught), and afterwards the accumulated results — if any — are saved in one
`_save_results_to_db` call.  `.error` means the call raised (only the save
can raise here); the store is threaded explicitly. -/
def scrape_single_request (batch_size now : ℕ) (r : RequestRun) (st : Store) :
    Except Unit (List ScrapingResult) × Store :=
  if r.driverOk then
    let all_results := collectSiteResults r.sites
    if all_results.isEmpty then (.ok [], st)
    else
      let saved := save_results_to_db batch_size r.id now all_results r.commitOk st
      (if saved.2 then .error () else .ok all_results, saved.1)
  else (.ok [], st)

/-- The map entry `scrape_with_concurrency` ends up holding for a request:
the request's own results, or `[]` when `future.result()` re-raised and the
`except` branch stored `results[request.id] = []`.  (The entry does not
depend on the store the request ran against; see
`scrape_single_request_fst_store_free`.) -/
def requestEntry (batch_size now : ℕ) (r : RequestRun) : List ScrapingResult :=
  match (scrape_single_request batch_size now r (Store.mk [] none)).1 with
  | .ok results => results
  | .error _ => []

/-- `EnhancedScraperService.scrape_with_concurrency`: submit every request,
collect `results[request.id] = future.result()`, replacing a raising
request's entry by `[]`.  Dict insertion order follows completion order at
runtime; the association list below fixes submission order, which is
irrelevant to lookups since tracked request ids are distinct. -/
def scrape_with_concurrency (batch_size now : ℕ) :
    List RequestRun → Store → List (ℕ × List ScrapingResult) × Store
  | [], st => ([], st)
  | r :: rest, st =>
    let one := scrape_single_request batch_size now r st
    let entry :=
      match one.1 with
      | .ok results => results
      | .error _ => []
    let others := scrape_with_concurrency batch_size now rest one.2
    ((r.id, entry) :: others.1, others.2)

/-! ### Concrete data used by the witness theorems -/

/-- A concrete scraped candidate. -/
def wResult : ScrapingResult :=
  ScrapingResult.mk "Hotel A" 1200 "TWD" "Booking.com" "https://example.com/a"

/-- A request whose first enabled site succeeds and whose second raises. -/
def wReq1 : RequestRun :=
  RequestRun.mk 1 true
    [SiteRun.mk true (SiteOutcome.ok [wResult]), SiteRun.mk true SiteOutcome.raise]
    (fun _ => true)

/-- A request whose only enabled site raises. -/
def wReq2 : RequestRun :=
  RequestRun.mk 2 true [SiteRun.mk true SiteOutcome.raise] (fun _ => true)

/-- A concrete result used by the persistence theorems. -/
def cResult : ScrapingResult :=
  ScrapingResult.mk "Hotel B" 2000 "TWD" "Agoda" "https://example.com/b"

/-! ### Association-list helper lemmas -/

theorem lookup_cons_self [BEq α] [LawfulBEq α] (k : α) (v : β) (l : List (α × β)) :
    ((k, v) :: l).lookup k = some v := by
  simp [List.lookup]

theorem lookup_cons_ne [BEq α] [LawfulBEq α] (k k' : α) (v : β) (l : List (α × β))
    (h : k' ≠ k) : ((k, v) :: l).lookup k' = l.lookup k' := by
  have hb : (k' == k) = false := beq_eq_false_iff_ne.mpr h
  simp [List.lookup, hb]

theorem lookup_append_none [BEq α] [LawfulBEq α] (l₁ l₂ : List (α × β)) (k : α)
    (h : l₁.lookup k = none) : (l₁ ++ l₂).lookup k = l₂.lookup k := by
  induction l₁ with
  | nil => rfl
  | cons p t ih =>
    rcases p with ⟨a, b⟩
    by_cases hk : k = a
    · subst hk; rw [lookup_cons_self] at h; cases h
    · rw [List.cons_append, lookup_cons_ne a k b _ hk,
        ih (by rwa [lookup_cons_ne a k b t hk] at h)]

theorem lookup_filter_key_ne (l : List (String × β)) (k : String) :
    (l.filter (fun p => p.1 ≠ k)).lookup k = none := by
  induction l with
  | nil => rfl
  | cons p t ih =>
    rcases p with ⟨a, b⟩
    by_cases ha : a = k
    · subst ha; simpa [List.filter_cons] using ih
    · rw [List.filter_cons, if_pos (by simpa using ha),
        lookup_cons_ne a k b _ (Ne.symm ha)]
      exact ih

/-! ### Registry helper lemmas -/

theorem countP_key_zero (l : Registry) (k : String) (h : k ∉ l.map Prod.fst) :
    l.countP (fun p => p.1 == k) = 0 := by
  rw [List.countP_eq_zero]
  intro p hp he
  have he' : p.1 = k := by simpa using he
  exact h (he' ▸ List.mem_map_of_mem Prod.fst hp)

theorem countP_key_one (l : Registry) (k : String)
    (hnd : (l.map Prod.fst).Nodup) (hs : (l.lookup k).isSome) :
    l.countP (fun p => p.1 == k) = 1 := by
  induction l with
  | nil => simp [List.lookup] at hs
  | cons p t ih =>
    rcases p with ⟨a, b⟩
    have hnd2 : a ∉ List.map Prod.fst t ∧ (List.map Prod.fst t).Nodup := by
      rw [List.map_cons, List.nodup_cons] at hnd; exact hnd
    rcases hnd2 with ⟨hna, hnd'⟩
    by_cases hk : a = k
    · subst hk
      rw [List.countP_cons, countP_key_zero t a hna]
      simp
    · rw [List.countP_cons]
      have hb : ((a, b).1 == k) = false := beq_eq_false_iff_ne.mpr hk
      rw [lookup_cons_ne a k b t (fun he => hk he.symm)] at hs
      simp [hb, ih hnd' hs]

theorem reschedule_keys (reg : Registry) (jid : String) (hours : ℕ) :
    (reschedule reg jid hours).map Prod.fst = reg.map Prod.fst := by
  unfold reschedule
  rw [List.map_map]
  apply List.map_congr_left
  intro p _
  by_cases hp : p.1 = jid <;> simp [hp]

theorem lookup_reschedule_self (reg : Registry) (jid : String) (hours : ℕ)
    (hs : (reg.lookup jid).isSome) :
    (reschedule reg jid hours).lookup jid = some (JobRec.mk hours) := by
  induction reg with
  | nil => simp [List.lookup] at hs
  | cons p t ih =>
    rcases p with ⟨a, b⟩
    unfold reschedule
    rw [List.map_cons]
    by_cases hk : a = jid
    · subst hk
      rw [if_pos (show (a, b).1 = a from rfl)]
      exact lookup_cons_self a _ _
    · rw [if_neg hk, lookup_cons_ne a jid b _ (fun he => hk he.symm)]
      rw [lookup_cons_ne a jid b t (fun he => hk he.symm)] at hs
      exact ih hs

theorem lookup_add_job_self (reg : Registry) (jid : String) (hours : ℕ) :
    (add_job reg jid hours).lookup jid = some (JobRec.mk hours) := by
  unfold add_job
  rw [lookup_append_none _ _ _ (lookup_filter_key_ne reg jid)]
  exact lookup_cons_self jid _ []

theorem add_job_keys_nodup (reg : Registry) (jid : String) (hours : ℕ)
    (h : (reg.map Prod.fst).Nodup) :
    ((add_job reg jid hours).map Prod.fst).Nodup := by
  unfold add_job
  rw [List.map_append]
  rw [List.nodup_append]
  refine ⟨?_, List.nodup_singleton jid, ?_⟩
  · exact h.sublist ((List.filter_sublist reg).map Prod.fst)
  · intro x hx
    rcases List.mem_map.mp hx with ⟨p, hp, rfl⟩
    have hne : p.1 ≠ jid := by simpa using List.of_mem_filter hp
    simpa using hne

theorem schedule_eq_cases (cfg srId : ℕ) (reg : Registry) :
    schedule_price_check cfg srId reg
      = match reg.lookup (job_id_for srId) with
        | some _ => reschedule reg (job_id_for srId) cfg
        | none => add_job reg (job_id_for srId) cfg := rfl

theorem schedule_lookup (cfg srId : ℕ) (reg : Registry) :
    (schedule_price_check cfg srId reg).lookup (job_id_for srId)
      = some (JobRec.mk cfg) := by
  rw [schedule_eq_cases]
  cases hlk : reg.lookup (job_id_for srId) with
  | none => exact lookup_add_job_self reg _ cfg
  | some j => exact lookup_reschedule_self reg _ cfg (by rw [hlk]; rfl)

theorem schedule_keys_nodup (cfg srId : ℕ) (reg : Registry)
    (h : (reg.map Prod.fst).Nodup) :
    ((schedule_price_check cfg srId reg).map Prod.fst).Nodup := by
  rw [schedule_eq_cases]
  cases reg.lookup (job_id_for srId) with
  | none => exact add_job_keys_nodup reg _ cfg h
  | some j => rw [reschedule_keys]; exact h

theorem countP_reschedule (reg : Registry) (jid : String) (hours : ℕ) (k : String) :
    (reschedule reg jid hours).countP (fun p => p.1 == k)
      = reg.countP (fun p => p.1 == k) := by
  unfold reschedule
  rw [List.countP_map]
  apply List.countP_congr
  intro p _
  by_cases hp : p.1 = jid <;> simp [hp, Function.comp]

/-! ### Claim theorems -/

/-- C1: contrary to the claim, `_safe_get_page` never performs a retry:
its internal `except` clauses convert every transient page-load failure
(timeout on the first two attempts here) into a normal `False` return, so
the tenacity predicate `retry_if_exception_type` never sees an exception
and the call returns failure after exactly 1 attempt.  Every call makes
exactly 1 attempt, for every environment.  The third conjunct shows the
retry machinery itself (as decorated) would have returned success after 3
attempts had the body let the transient exceptions escape — the decorator's
evident intent. -/
theorem safe_get_page_never_retries :
    (safe_get_page (fun k => if k ≤ 1 then PageOutcome.timeout else PageOutcome.ok)
        = (Except.ok false, 1)) ∧
    (∀ env : ℕ → PageOutcome, (safe_get_page env).2 = 1) ∧
    (tenacityLoop (fun k => if k ≤ 1 then Except.error PyExc.timeoutExc else Except.ok true) 2 0
        = (Except.ok true, 3)) := by
  refine ⟨rfl, ?_, rfl⟩
  intro env
  show (tenacityLoop (fun k => safeGetPageBody (env k)) 2 0).2 = 1
  cases h : env 0 <;> simp [tenacityLoop, safeGetPageBody, h]

/-- Witness for C1's universally quantified conjunct at a concrete
environment: a transport-level failure also yields exactly 1 attempt. -/
theorem safe_get_page_never_retries_witness :
    (safe_get_page (fun _ => PageOutcome.webdriverErr)).2 = 1 :=
  safe_get_page_never_retries.2.1 (fun _ => PageOutcome.webdriverErr)

/-- C4: calling `schedule_price_check` twice for the same request id (the
configured interval being `i1` at the first call and `i2` at the second)
leaves exactly one job whose id is the deterministic `crawl_request_{id}`,
and its interval is the one from the second call. -/
theorem schedule_price_check_idempotent (reg : Registry) (srId i1 i2 : ℕ)
    (hnodup : (reg.map Prod.fst).Nodup) :
    ((schedule_price_check i2 srId (schedule_price_check i1 srId reg)).countP
        (fun p => p.1 == job_id_for srId) = 1) ∧
    ((schedule_price_check i2 srId (schedule_price_check i1 srId reg)).lookup
        (job_id_for srId) = some (JobRec.mk i2)) := by
  have h1 : (schedule_price_check i1 srId reg).lookup (job_id_for srId)
      = some (JobRec.mk i1) := schedule_lookup i1 srId reg
  have hnd1 : ((schedule_price_check i1 srId reg).map Prod.fst).Nodup :=
    schedule_keys_nodup i1 srId reg hnodup
  constructor
  · rw [schedule_eq_cases i2 srId (schedule_price_check i1 srId reg), h1]
    rw [countP_reschedule]
    exact countP_key_one _ _ hnd1 (by rw [h1]; rfl)
  · exact schedule_lookup i2 srId (schedule_price_check i1 srId reg)

/-- Witness for C4 at a concrete empty registry: two calls for request 7
with intervals 2 then 5 leave exactly one `crawl_request_7` job with
interval 5. -/
theorem schedule_price_check_idempotent_witness :
    ((schedule_price_check 5 7 (schedule_price_check 2 7 [])).countP
        (fun p => p.1 == job_id_for 7) = 1) ∧
    ((schedule_price_check 5 7 (schedule_price_check 2 7 [])).lookup
        (job_id_for 7) = some (JobRec.mk 5)) :=
  schedule_price_check_idempotent [] 7 2 5 (by simp)

/-- C5: a job firing for a request id whose backing row no longer exists
completes (the wrapper is a total function — every exception is caught) with
the job removed from the registry and no scrape; every other job survives.
A firing for a present row with tracking disabled skips the scrape and
leaves the registry unchanged. -/
theorem job_wrapper_self_validating (srId : ℕ) (reg : Registry) :
    ((job_wrapper srId none reg).1.lookup (job_id_for srId) = none) ∧
    (∀ p ∈ reg, p.1 ≠ job_id_for srId → p ∈ (job_wrapper srId none reg).1) ∧
    ((job_wrapper srId none reg).2 = false) ∧
    (job_wrapper srId (some false) reg = (reg, false)) := by
  have hrm : remove_scheduled_job srId reg
      = match reg.lookup (job_id_for srId) with
        | some _ => reg.filter (fun p => p.1 ≠ job_id_for srId)
        | none => reg := rfl
  refine ⟨?_, ?_, rfl, rfl⟩
  · show (remove_scheduled_job srId reg).lookup (job_id_for srId) = none
    rw [hrm]
    cases hlk : reg.lookup (job_id_for srId) with
    | none => exact hlk
    | some j => exact lookup_filter_key_ne reg (job_id_for srId)
  · intro p hp hne
    show p ∈ remove_scheduled_job srId reg
    rw [hrm]
    cases reg.lookup (job_id_for srId) with
    | none => exact hp
    | some j => exact List.mem_filter.mpr ⟨hp, by simpa using hne⟩

/-- Witness for C5 at a concrete registry: firing the orphaned job of
request 3 removes `crawl_request_3` and keeps `crawl_request_9`. -/
theorem job_wrapper_self_validating_witness :
    ((job_wrapper 3 none
        [(job_id_for 3, JobRec.mk 2), ("crawl_request_9", JobRec.mk 1)]).1.lookup
        (job_id_for 3) = none) ∧
    ("crawl_request_9", JobRec.mk 1) ∈ (job_wrapper 3 none
        [(job_id_for 3, JobRec.mk 2), ("crawl_request_9", JobRec.mk 1)]).1 := by
  have h := job_wrapper_self_validating 3
    [(job_id_for 3, JobRec.mk 2), ("crawl_request_9", JobRec.mk 1)]
  exact ⟨h.1, h.2.1 ("crawl_request_9", JobRec.mk 1) (by simp) (by decide)⟩

/-- C9: two breaches of the same (type, site) pair within one cooldown
window (300 seconds) produce exactly one alert: the first breach (at a real
clock time, i.e. at least one cooldown interval after epoch, with no
previous alert recorded for the key) appends exactly one entry to the
history and dispatches it, and the second breach leaves the state — history,
dispatch stream and all — untouched. -/
theorem alert_cooldown_single_alert (alert_type msg1 msg2 site : String) (t1 t2 : ℚ)
    (s : AlertState)
    (hfresh : s.last_alert_times.lookup (alert_type ++ "_" ++ site) = none)
    (h1 : min_alert_interval ≤ t1) (h12 : t1 ≤ t2)
    (hwin : t2 - t1 < min_alert_interval) :
    (send_alert alert_type msg1 site t1 s
      = AlertState.mk (s.last_alert_times ++ [(alert_type ++ "_" ++ site, t1)])
          (pushMax 100 (Alert.mk alert_type msg1 site t1) s.alert_history)
          (s.notified ++ [Alert.mk alert_type msg1 site t1])) ∧
    (send_alert alert_type msg2 site t2 (send_alert alert_type msg1 site t1 s)
      = send_alert alert_type msg1 site t1 s) := by
  have hs1 : send_alert alert_type msg1 site t1 s
      = AlertState.mk (s.last_alert_times ++ [(alert_type ++ "_" ++ site, t1)])
          (pushMax 100 (Alert.mk alert_type msg1 site t1) s.alert_history)
          (s.notified ++ [Alert.mk alert_type msg1 site t1]) := by
    simp only [send_alert, hfresh, Option.getD_none]
    rw [if_neg (by linarith)]
    simp [upsert, hfresh]
  refine ⟨hs1, ?_⟩
  rw [hs1]
  simp only [send_alert, lookup_append_none _ _ _ hfresh, lookup_cons_self,
    Option.getD_some]
  rw [if_pos (by linarith)]

/-- Witness for C9 at a fresh alert manager: breaches at times 300 and 400
of the same (type, site) leave the state of the first alert unchanged. -/
theorem alert_cooldown_single_alert_witness :
    send_alert "low_success_rate" "m2" "Booking.com" 400
        (send_alert "low_success_rate" "m1" "Booking.com" 300 (AlertState.mk [] [] []))
      = send_alert "low_success_rate" "m1" "Booking.com" 300 (AlertState.mk [] [] []) :=
  (alert_cooldown_single_alert "low_success_rate" "m1" "m2" "Booking.com" 300 400
    (AlertState.mk [] [] []) rfl (by norm_num [min_alert_interval])
    (by norm_num) (by norm_num [min_alert_interval])).2

theorem price_ranges_lookup_none (c : String)
    (h1 : c ≠ "TWD") (h2 : c ≠ "USD") (h3 : c ≠ "EUR") (h4 : c ≠ "GBP")
    (h5 : c ≠ "JPY") : price_ranges.lookup c = none := by
  have b1 := beq_eq_false_iff_ne.mpr h1
  have b2 := beq_eq_false_iff_ne.mpr h2
  have b3 := beq_eq_false_iff_ne.mpr h3
  have b4 := beq_eq_false_iff_ne.mpr h4
  have b5 := beq_eq_false_iff_ne.mpr h5
  simp [price_ranges, List.lookup, b1, b2, b3, b4, b5]

theorem is_valid_price_band_case (p lo hi : ℚ) (c : String)
    (hc : price_ranges.lookup c = some (lo, some hi)) (hlo : 0 < lo) :
    (is_valid_price p c = true ↔ lo ≤ p ∧ p ≤ hi) := by
  unfold is_valid_price
  rw [hc]
  by_cases hp : p ≤ 0
  · rw [if_pos hp]
    constructor
    · intro h; exact absurd h (by simp)
    · rintro ⟨hle, _⟩; exact absurd hp (by linarith)
  · rw [if_neg hp]
    simp [Bool.and_eq_true, decide_eq_true_eq]

/-- C8: `is_valid_price` rejects every non-positive amount, and for every
currency with a configured band it accepts an amount exactly when the
amount lies in that band; in particular -10 TWD and 100000 TWD are both
rejected under the TWD band [500, 50000]. -/
theorem is_valid_price_bands :
    (∀ (p : ℚ) (c : String), p ≤ 0 → is_valid_price p c = false) ∧
    (∀ (p lo hi : ℚ) (c : String), price_ranges.lookup c = some (lo, some hi) →
        (is_valid_price p c = true ↔ lo ≤ p ∧ p ≤ hi)) ∧
    is_valid_price (-10) "TWD" = false ∧
    is_valid_price 100000 "TWD" = false := by
  refine ⟨?_, ?_, by decide, by decide⟩
  · intro p c hp
    unfold is_valid_price
    rw [if_pos hp]
  · intro p lo hi c hc
    by_cases e1 : c = "TWD"
    · subst e1
      rw [show price_ranges.lookup "TWD" = some ((500 : ℚ), some (50000 : ℚ)) by decide] at hc
      simp only [Option.some.injEq, Prod.mk.injEq] at hc
      obtain ⟨rfl, rfl⟩ := hc
      exact is_valid_price_band_case p _ _ _ (by decide) (by norm_num)
    by_cases e2 : c = "USD"
    · subst e2
      rw [show price_ranges.lookup "USD" = some ((20 : ℚ), some (2000 : ℚ)) by decide] at hc
      simp only [Option.some.injEq, Prod.mk.injEq] at hc
      obtain ⟨rfl, rfl⟩ := hc
      exact is_valid_price_band_case p _ _ _ (by decide) (by norm_num)
    by_cases e3 : c = "EUR"
    · subst e3
      rw [show price_ranges.lookup "EUR" = some ((20 : ℚ), some (2000 : ℚ)) by decide] at hc
      simp only [Option.some.injEq, Prod.mk.injEq] at hc
      obtain ⟨rfl, rfl⟩ := hc
      exact is_valid_price_band_case p _ _ _ (by decide) (by norm_num)
    by_cases e4 : c = "GBP"
    · subst e4
      rw [show price_ranges.lookup "GBP" = some ((20 : ℚ), some (2000 : ℚ)) by decide] at hc
      simp only [Option.some.injEq, Prod.mk.injEq] at hc
      obtain ⟨rfl, rfl⟩ := hc
      exact is_valid_price_band_case p _ _ _ (by decide) (by norm_num)
    by_cases e5 : c = "JPY"
    · subst e5
      rw [show price_ranges.lookup "JPY" = some ((2000 : ℚ), some (200000 : ℚ)) by decide] at hc
      simp only [Option.some.injEq, Prod.mk.injEq] at hc
      obtain ⟨rfl, rfl⟩ := hc
      exact is_valid_price_band_case p _ _ _ (by decide) (by norm_num)
    rw [price_ranges_lookup_none c e1 e2 e3 e4 e5] at hc
    cases hc

/-- Witness for C8: -10 USD is rejected by the non-positive rule, and
600 TWD is accepted since it lies in the TWD band [500, 50000]. -/
theorem is_valid_price_bands_witness :
    is_valid_price (-10) "USD" = false ∧ is_valid_price 600 "TWD" = true := by
  refine ⟨is_valid_price_bands.1 (-10) "USD" (by norm_num), ?_⟩
  exact (is_valid_price_bands.2.1 600 500 50000 "TWD" (by decide)).mpr (by norm_num)

/-- C10: the plausibility check's band table has no entry for currencies
outside {TWD, USD, EUR, GBP, JPY}, so `price_ranges.get` falls back to the
default `(0, float('inf'))` band and every strictly positive amount is
accepted; and CNY is such a currency, reachable from the price parser
(`parse_price_text "元100" = (100, CNY)`). -/
theorem is_valid_price_unknown_currency :
    parse_price_text "元100" = (some 100, "CNY") ∧
    ("元", "CNY") ∈ CURRENCY_SYMBOLS ∧
    ∀ (p : ℚ) (c : String), 0 < p →
      c ∉ (["TWD", "USD", "EUR", "GBP", "JPY"] : List String) →
      is_valid_price p c = true := by
  refine ⟨?_, by decide, ?_⟩
  · have h : parse_price_text "元100" = (some ((100 : ℕ) : ℚ), "CNY") := rfl
    rw [h]; norm_num
  · intro p c hp hc
    simp only [List.mem_cons, List.not_mem_nil, or_false, not_or] at hc
    obtain ⟨e1, e2, e3, e4, e5⟩ := hc
    unfold is_valid_price
    rw [price_ranges_lookup_none c e1 e2 e3 e4 e5]
    rw [if_neg (not_le.mpr hp)]
    simp [le_of_lt hp]

/-- Witness for C10: amount 1 of the unknown currency CNY is accepted. -/
theorem is_valid_price_unknown_currency_witness :
    (0 : ℚ) < 1 ∧ is_valid_price 1 "CNY" = true :=
  ⟨by norm_num,
    is_valid_price_unknown_currency.2.2 1 "CNY" (by norm_num) (by decide)⟩

/-! ### Parser helper lemmas -/

theorem replDropAux_subset (pat : List Char) (fuel : ℕ) :
    ∀ (l : List Char) (c : Char), c ∈ replDropAux pat fuel l → c ∈ l := by
  induction fuel with
  | zero =>
    intro l c hc
    cases l with
    | nil => cases hc
    | cons a t => exact hc
  | succ f ih =>
    intro l c hc
    cases l with
    | nil => cases hc
    | cons a t =>
      by_cases hp : pat ≠ [] ∧ pat.isPrefixOf (a :: t)
      · rw [show replDropAux pat (f + 1) (a :: t)
            = replDropAux pat f ((a :: t).drop pat.length) by
              simp only [replDropAux, if_pos hp]] at hc
        exact List.mem_of_mem_drop (ih _ c hc)
      · rw [show replDropAux pat (f + 1) (a :: t)
            = a :: replDropAux pat f t by
              simp only [replDropAux, if_neg hp]] at hc
        rcases List.mem_cons.mp hc with rfl | hc'
        · exact List.mem_cons_self _ _
        · exact List.mem_cons_of_mem _ (ih t c hc')

theorem replDrop_subset (pat l : List Char) (c : Char) (hc : c ∈ replDrop pat l) :
    c ∈ l :=
  replDropAux_subset pat l.length l c hc

theorem filter_all_comma (l : List Char) (h : ∀ c ∈ l, c = ',') :
    l.filter (fun c => c ≠ ',') = [] := by
  rw [List.filter_eq_nil_iff]
  intro c hc
  simp [h c hc]

theorem searchNum_no_digit :
    ∀ l : List Char, (∀ c ∈ l, c.isDigit = false) →
      ∀ m, searchNum l = some m → pyFloat (m.filter (fun c => c ≠ ',')) = none := by
  intro l
  induction l with
  | nil => intro _ m hm; cases hm
  | cons a t ih =>
    intro h m hm
    by_cases ha : isDigComma a
    · have hm' : m = matchNumAt (a :: t) := by
        rw [show searchNum (a :: t) = some (matchNumAt (a :: t)) by
          simp only [searchNum, if_pos ha]] at hm
        exact (Option.some.inj hm).symm
      subst hm'
      have hrun : ∀ c ∈ (a :: t).takeWhile isDigComma, c = ',' := by
        intro c hc
        have hdc : isDigComma c = true := List.mem_takeWhile_imp hc
        have hmem : c ∈ a :: t := (List.takeWhile_sublist _).subset hc
        have hnd := h c hmem
        simpa [isDigComma, hnd] using hdc
      simp only [matchNumAt]
      cases hdrop : (a :: t).drop ((a :: t).takeWhile isDigComma).length with
      | nil =>
        simp only [List.head?_nil, reduceCtorEq, if_false]
        rw [filter_all_comma _ hrun]
        rfl
      | cons d rest =>
        by_cases hd : d = '.'
        · subst hd
          simp only [List.head?_cons, Option.some.injEq, eq_self_iff_true, if_true,
            List.tail_cons]
          have hrtw : rest.takeWhile isDig = [] := by
            cases hr : rest with
            | nil => rfl
            | cons e es =>
              have he : e ∈ a :: t := by
                apply List.mem_of_mem_drop
                rw [hdrop, hr]
                exact List.mem_cons_of_mem _ (List.mem_cons_self e es)
              have : isDig e = false := by simpa [isDig] using h e he
              simp [List.takeWhile_cons, this]
          rw [hrtw, List.filter_append, filter_all_comma _ hrun]
          rfl
        · simp only [List.head?_cons, Option.some.injEq, if_neg hd]
          rw [filter_all_comma _ hrun]
          rfl
    · have hm' : searchNum t = some m := by
        rw [show searchNum (a :: t) = searchNum t by
          simp only [searchNum, if_neg ha]] at hm
        exact hm
      exact ih (fun c hc => h c (List.mem_cons_of_mem a hc)) m hm'

/-- C6 counterexample: on "EUR45$" the code returns USD — the table scan
runs in the dictionary's insertion order and hits "$" (4th entry) before
"EUR" (8th entry) — while the spec's longest-match-first rule picks the
3-character symbol "EUR".  So parsing is not longest-match-first. -/
theorem parse_price_longest_first_counterexample :
    parse_price_text "EUR45$" = (some 45, "USD") ∧
    spec_longest_first_currency "EUR45$" = "EUR" ∧
    ("USD" : String) ≠ "EUR" := by
  refine ⟨?_, by decide, by decide⟩
  have h : parse_price_text "EUR45$" = (some ((45 : ℕ) : ℚ), "USD") := rfl
  rw [h]; norm_num

/-- C6 amended: the symbol scan runs in the fixed table insertion order
(NT$ before $, the two-character localized names before 元), not
longest-match-first in general; the claim's concrete examples do hold —
`parse("NT$2,350.50") = (2350.50, TWD)`, `parse("€45") = (45.0, EUR)` —
and any text in which no table symbol occurs is parsed with the home
currency TWD. -/
theorem parse_price_table_order :
    parse_price_text "NT$2,350.50" = (some (4701 / 2), "TWD") ∧
    parse_price_text "€45" = (some 45, "EUR") ∧
    ∀ s : String,
      findSymbol CURRENCY_SYMBOLS (s.data.filter (fun c => !(isPySpace c))) = none →
      (parse_price_text s).2 = "TWD" := by
  refine ⟨?_, ?_, ?_⟩
  · have h : parse_price_text "NT$2,350.50"
        = (some (((2350 : ℕ) : ℚ) + ((50 : ℕ) : ℚ) / (10 : ℚ) ^ 2), "TWD") := rfl
    rw [h]; norm_num
  · have h : parse_price_text "€45" = (some ((45 : ℕ) : ℚ), "EUR") := rfl
    rw [h]; norm_num
  · intro s hnone
    by_cases he : s.data.isEmpty
    · simp [parse_price_text, he]
    · simp only [parse_price_text, he, Bool.false_eq_true, if_false, hnone]
      cases searchNum (s.data.filter fun c => !(isPySpace c)) with
      | none => rfl
      | some m =>
        dsimp only
        cases pyFloat (m.filter fun c => c ≠ ',') with
        | none => rfl
        | some v => rfl

/-- Witness for C6 (amended): a text containing no table symbol parses
with the default home currency TWD. -/
theorem parse_price_table_order_witness :
    (parse_price_text "SoldOut").2 = "TWD" :=
  parse_price_table_order.2.2 "SoldOut" (by decide)

/-- C7: the parser produces no amount on the empty string, and on every
ASCII text containing no digit (hence no numeric token), such as
"Sold Out". -/
theorem parse_price_no_numeric_token :
    ((parse_price_text "").1 = none) ∧
    ∀ s : String, (∀ c ∈ s.data, c.toNat < 128) →
      (∀ c ∈ s.data, c.isDigit = false) →
      (parse_price_text s).1 = none := by
  refine ⟨rfl, ?_⟩
  intro s _ hnd
  by_cases he : s.data.isEmpty
  · simp [parse_price_text, he]
  · have hclean : ∀ c ∈ s.data.filter (fun c => !(isPySpace c)), c.isDigit = false :=
      fun c hc => hnd c (List.mem_of_mem_filter hc)
    simp only [parse_price_text, he, Bool.false_eq_true, if_false]
    cases hfs : findSymbol CURRENCY_SYMBOLS (s.data.filter fun c => !(isPySpace c)) with
    | none =>
      cases hsn : searchNum (s.data.filter fun c => !(isPySpace c)) with
      | none => rfl
      | some m =>
        dsimp only
        rw [searchNum_no_digit _ hclean m hsn]
    | some pr =>
      rcases pr with ⟨sym, cur⟩
      have hrep : ∀ c ∈ replDrop sym.data (s.data.filter fun c => !(isPySpace c)),
          c.isDigit = false :=
        fun c hc => hclean c (replDrop_subset _ _ c hc)
      cases hsn : searchNum (replDrop sym.data (s.data.filter fun c => !(isPySpace c))) with
      | none => rfl
      | some m =>
        dsimp only
        rw [searchNum_no_digit _ hrep m hsn]

/-- Witness for C7: "Sold Out" is ASCII, has no digit, and parses to no
amount. -/
theorem parse_price_no_numeric_token_witness :
    (parse_price_text "Sold Out").1 = none :=
  parse_price_no_numeric_token.2 "Sold Out" (by decide) (by decide)

/-! ### Orchestrator and persistence helper lemmas -/

theorem commitChunks_flags_store_free (reqId now : ℕ) (ok : ℕ → Bool)
    (cs : List (List ScrapingResult)) :
    ∀ (k : ℕ) (st st' : Store),
      (commitChunks reqId now ok cs k st).2 = (commitChunks reqId now ok cs k st').2 := by
  induction cs with
  | nil => intro k st st'; rfl
  | cons c rest ih =>
    intro k st st'
    by_cases h : ok k
    · rw [show ∀ s : Store, commitChunks reqId now ok (c :: rest) k s
            = commitChunks reqId now ok rest (k + 1)
                (Store.mk (s.observations ++ c.map (toHotelPrice reqId now)) s.last_crawled_at)
          from fun s => by simp only [commitChunks, if_pos h],
        show ∀ s : Store, commitChunks reqId now ok (c :: rest) k s
            = commitChunks reqId now ok rest (k + 1)
                (Store.mk (s.observations ++ c.map (toHotelPrice reqId now)) s.last_crawled_at)
          from fun s => by simp only [commitChunks, if_pos h]]
      exact ih (k + 1) _ _
    · simp only [commitChunks, if_neg h]

theorem commitChunks_no_raise_of_all_ok (reqId now : ℕ) (ok : ℕ → Bool)
    (hok : ∀ j, ok j = true) (cs : List (List ScrapingResult)) :
    ∀ (k : ℕ) (st : Store), (commitChunks reqId now ok cs k st).2.1 = false := by
  induction cs with
  | nil => intro k st; rfl
  | cons c rest ih =>
    intro k st
    simp only [commitChunks, if_pos (hok k)]
    exact ih (k + 1) _

theorem commitChunks_last_unchanged (reqId now : ℕ) (ok : ℕ → Bool)
    (cs : List (List ScrapingResult)) :
    ∀ (k : ℕ) (st : Store),
      (commitChunks reqId now ok cs k st).1.last_crawled_at = st.last_crawled_at := by
  induction cs with
  | nil => intro k st; rfl
  | cons c rest ih =>
    intro k st
    by_cases h : ok k
    · simp only [commitChunks, if_pos h]
      exact ih (k + 1) _
    · simp only [commitChunks, if_neg h]

theorem save_raised_store_free (b reqId now : ℕ) (results : List ScrapingResult)
    (ok : ℕ → Bool) (st st' : Store) :
    (save_results_to_db b reqId now results ok st).2
      = (save_results_to_db b reqId now results ok st').2 := by
  simp only [save_results_to_db]
  rw [← commitChunks_flags_store_free reqId now ok (chunkList b results) 0 st st']
  by_cases h1 : (commitChunks reqId now ok (chunkList b results) 0 st).2.1
  · simp only [h1, if_true]
  · simp only [h1, Bool.false_eq_true, if_false]
    by_cases h2 : ok (commitChunks reqId now ok (chunkList b results) 0 st).2.2
    · simp only [h2, if_true]
    · simp only [h2, Bool.false_eq_true, if_false]

theorem save_no_raise_of_all_ok (b reqId now : ℕ) (results : List ScrapingResult)
    (ok : ℕ → Bool) (hok : ∀ j, ok j = true) (st : Store) :
    (save_results_to_db b reqId now results ok st).2 = false := by
  simp only [save_results_to_db,
    commitChunks_no_raise_of_all_ok reqId now ok hok (chunkList b results) 0 st,
    Bool.false_eq_true, if_false, hok, if_true]

theorem scrape_single_request_fst_store_free (b now : ℕ) (r : RequestRun)
    (st st' : Store) :
    (scrape_single_request b now r st).1 = (scrape_single_request b now r st').1 := by
  simp only [scrape_single_request]
  by_cases hd : r.driverOk
  · simp only [hd, if_true]
    by_cases he : (collectSiteResults r.sites).isEmpty
    · simp only [he, if_true]
    · simp only [he, Bool.false_eq_true, if_false]
      rw [save_raised_store_free b r.id now (collectSiteResults r.sites) r.commitOk st st']
  · simp only [hd, Bool.false_eq_true, if_false]

theorem scrape_single_request_ok_of_all_ok (b now : ℕ) (r : RequestRun) (st : Store)
    (hd : r.driverOk = true) (hok : ∀ j, r.commitOk j = true) :
    (scrape_single_request b now r st).1 = Except.ok (collectSiteResults r.sites) := by
  simp only [scrape_single_request, hd, if_true]
  by_cases he : (collectSiteResults r.sites).isEmpty
  · rw [List.isEmpty_iff] at he
    simp [he]
  · simp only [he, Bool.false_eq_true, if_false,
      save_no_raise_of_all_ok b r.id now (collectSiteResults r.sites) r.commitOk hok st,
      if_false]

theorem requestEntry_of_all_ok (b now : ℕ) (r : RequestRun)
    (hd : r.driverOk = true) (hok : ∀ j, r.commitOk j = true) :
    requestEntry b now r = collectSiteResults r.sites := by
  unfold requestEntry
  rw [scrape_single_request_ok_of_all_ok b now r _ hd hok]

theorem mem_collectSiteResults (sites : List SiteRun) (s : SiteRun) (hs : s ∈ sites)
    (he : s.enabled = true) (res : List ScrapingResult)
    (ho : s.outcome = SiteOutcome.ok res) (c : ScrapingResult) (hc : c ∈ res) :
    c ∈ collectSiteResults sites := by
  induction sites with
  | nil => cases hs
  | cons a rest ih =>
    rcases List.mem_cons.mp hs with rfl | hs'
    · simp only [collectSiteResults, he, if_true, ho]
      exact List.mem_append_left _ hc
    · by_cases ha : a.enabled
      · simp only [collectSiteResults, ha, if_true]
        exact List.mem_append_right _ (ih hs')
      · simp only [collectSiteResults, ha, Bool.false_eq_true, if_false]
        exact ih hs'

theorem scrape_map_lookup (b now : ℕ) (reqs : List RequestRun) :
    ∀ (st : Store) (r : RequestRun), r ∈ reqs →
      (reqs.map RequestRun.id).Nodup →
      (scrape_with_concurrency b now reqs st).1.lookup r.id
        = some (requestEntry b now r) := by
  induction reqs with
  | nil => intro st r hmem _; cases hmem
  | cons a rest ih =>
    intro st r hmem hnodup
    have hnd2 : a.id ∉ rest.map RequestRun.id ∧ (rest.map RequestRun.id).Nodup := by
      rw [List.map_cons, List.nodup_cons] at hnodup; exact hnodup
    rcases List.mem_cons.mp hmem with rfl | hmem'
    · show ((r.id, _) :: _).lookup r.id = _
      rw [lookup_cons_self]
      congr 1
      unfold requestEntry
      rw [scrape_single_request_fst_store_free b now r st (Store.mk [] none)]
    · have hne : r.id ≠ a.id := by
        intro h
        exact hnd2.1 (h ▸ List.mem_map_of_mem RequestRun.id hmem')
      show ((a.id, _) :: _).lookup r.id = _
      rw [lookup_cons_ne a.id r.id _ _ hne]
      exact ih _ r hmem' hnd2.2

/-- C2: in the orchestrator's result map, each tracked request's entry is a
function of that request alone (so a failure on one request never removes
or empties another request's entry), and when a request's driver and
persistence behave, the candidates of every successful enabled site are
present in its entry even if scraping other sites of that request raises. -/
theorem orchestrator_failure_isolation (b now : ℕ) (reqs : List RequestRun)
    (st : Store) (r : RequestRun) (hmem : r ∈ reqs)
    (hnodup : (reqs.map RequestRun.id).Nodup) :
    ((scrape_with_concurrency b now reqs st).1.lookup r.id
        = some (requestEntry b now r)) ∧
    (r.driverOk = true → (∀ j, r.commitOk j = true) →
      ∀ s ∈ r.sites, ∀ res, s.enabled = true → s.outcome = SiteOutcome.ok res →
        ∀ c ∈ res, c ∈ requestEntry b now r) := by
  refine ⟨scrape_map_lookup b now reqs st r hmem hnodup, ?_⟩
  intro hd hok s hs res he ho c hc
  rw [requestEntry_of_all_ok b now r hd hok]
  exact mem_collectSiteResults r.sites s hs he res ho c hc

/-- Witness for C2: two requests, the first with one successful site and one
raising site, the second with only a raising site; the successful site's
candidate is present in the entry of request 1. -/
theorem orchestrator_failure_isolation_witness :
    ((scrape_with_concurrency 100 7 [wReq1, wReq2] (Store.mk [] none)).1.lookup 1
        = some (requestEntry 100 7 wReq1)) ∧
    wResult ∈ requestEntry 100 7 wReq1 := by
  have h := orchestrator_failure_isolation 100 7 [wReq1, wReq2] (Store.mk [] none)
    wReq1 (List.mem_cons_self wReq1 [wReq2]) (by simp [wReq1, wReq2])
  refine ⟨h.1, ?_⟩
  exact h.2 rfl (fun j => rfl) (SiteRun.mk true (SiteOutcome.ok [wResult]))
    (List.mem_cons_self _ _) [wResult] rfl rfl wResult (List.mem_cons_self _ _)

theorem chunkAux_nil (n fuel : ℕ) : chunkAux (α := ScrapingResult) n fuel [] = [] := by
  cases fuel <;> rfl

theorem chunkList_single (n : ℕ) (l : List ScrapingResult)
    (hl : l.length ≤ n) (hne : l ≠ []) : chunkList n l = [l] := by
  unfold chunkList
  cases l with
  | nil => exact absurd rfl hne
  | cons a t =>
    show chunkAux n (t.length + 1) (a :: t) = [a :: t]
    simp only [chunkAux]
    rw [List.take_of_length_le hl, List.drop_eq_nil_of_le hl, chunkAux_nil]

/-- C3 counterexample: with the default `batch_size` of 100 and 101 results,
a failure of the second commit leaves the first 100 observations persisted
even though the save raises — the write is chunked, not all-or-nothing —
while `last_crawled_at` stays unchanged. -/
theorem save_results_partial_persist_counterexample :
    ((save_results_to_db 100 1 5 (List.replicate 101 cResult)
        (fun k => k == 0) (Store.mk [] none)).2 = true) ∧
    ((save_results_to_db 100 1 5 (List.replicate 101 cResult)
        (fun k => k == 0) (Store.mk [] none)).1.observations.length = 100) ∧
    ((save_results_to_db 100 1 5 (List.replicate 101 cResult)
        (fun k => k == 0) (Store.mk [] none)).1.last_crawled_at = none) := by
  refine ⟨?_, ?_, ?_⟩ <;> rfl

/-- C3 amended: persistence happens in a single `_save_results_to_db` call
per request, after all sites have been attempted (never per site); within
one batch (at most `batch_size` results) the observation write is
all-or-nothing; `last_crawled_at` is unchanged whenever the save raises and
is set exactly when every commit succeeds; and the basic
`ScraperService._save_results_to_db` (one commit for observations and
last-crawled together) is genuinely all-or-nothing.  With more than
`batch_size` results the enhanced save commits chunk by chunk, so an
all-or-nothing guarantee does not hold there (see the counterexample). -/
theorem save_results_batching (batch_size reqId now : ℕ)
    (results : List ScrapingResult) (commitOk : ℕ → Bool) (st : Store)
    (hpos : 0 < batch_size) :
    (∀ (r : RequestRun) (st0 : Store),
        (scrape_single_request batch_size now r st0).2
          = if r.driverOk = true ∧ (collectSiteResults r.sites).isEmpty = false
            then (save_results_to_db batch_size r.id now (collectSiteResults r.sites)
                    r.commitOk st0).1
            else st0) ∧
    (results.length ≤ batch_size →
        (save_results_to_db batch_size reqId now results commitOk st).1.observations
            = st.observations ∨
        (save_results_to_db batch_size reqId now results commitOk st).1.observations
            = st.observations ++ results.map (toHotelPrice reqId now)) ∧
    ((save_results_to_db batch_size reqId now results commitOk st).2 = true →
        (save_results_to_db batch_size reqId now results commitOk st).1.last_crawled_at
          = st.last_crawled_at) ∧
    ((save_results_to_db batch_size reqId now results commitOk st).2 = false →
        (save_results_to_db batch_size reqId now results commitOk st).1.last_crawled_at
          = some now) ∧
    (∀ ok : Bool, save_results_to_db_basic reqId now results ok st
        = if ok then
            (Store.mk (st.observations ++ results.map (toHotelPrice reqId now))
              (some now), false)
          else (st, true)) := by
  refine ⟨?_, ?_, ?_, ?_, ?_⟩
  · intro r st0
    simp only [scrape_single_request]
    by_cases hd : r.driverOk
    · by_cases he : (collectSiteResults r.sites).isEmpty
      · have he' : (collectSiteResults r.sites).isEmpty = true := he
        simp [hd, he']
      · have he' : (collectSiteResults r.sites).isEmpty = false := by simpa using he
        simp [hd, he']
    · have hd' : r.driverOk = false := by simpa using hd
      simp [hd']
  · intro hlen
    by_cases hne : results = []
    · subst hne
      by_cases h0 : commitOk 0 <;>
        simp [save_results_to_db, chunkList, chunkAux, commitChunks, h0]
    · have hch := chunkList_single batch_size results hlen hne
      by_cases h0 : commitOk 0
      · simp only [save_results_to_db, hch, commitChunks, if_pos h0]
        by_cases h1 : commitOk 1 <;> simp [h1]
      · simp only [save_results_to_db, hch, commitChunks, if_neg h0]
        simp
  · intro hr
    simp only [save_results_to_db] at hr ⊢
    by_cases h1 : (commitChunks reqId now commitOk (chunkList batch_size results) 0 st).2.1
    · simp only [h1, if_true]
      exact commitChunks_last_unchanged reqId now commitOk (chunkList batch_size results) 0 st
    · simp only [h1, Bool.false_eq_true, if_false] at hr ⊢
      by_cases h2 : commitOk
          (commitChunks reqId now commitOk (chunkList batch_size results) 0 st).2.2
      · simp [h2] at hr
      · simp only [h2, Bool.false_eq_true, if_false]
        exact commitChunks_last_unchanged reqId now commitOk (chunkList batch_size results) 0 st
  · intro hr
    simp only [save_results_to_db] at hr ⊢
    by_cases h1 : (commitChunks reqId now commitOk (chunkList batch_size results) 0 st).2.1
    · simp [h1] at hr
    · simp only [h1, Bool.false_eq_true, if_false] at hr ⊢
      by_cases h2 : commitOk
          (commitChunks reqId now commitOk (chunkList batch_size results) 0 st).2.2
      · simp [h2]
      · simp [h2] at hr
  · intro ok
    cases ok <;> rfl

/-- Witness for C3 (amended): a one-result save with all commits succeeding
appends exactly that result's row (the non-trivial disjunct of the
all-or-nothing property at batch size 100). -/
theorem save_results_batching_witness :
    (save_results_to_db 100 1 5 [cResult] (fun _ => true) (Store.mk [] none)).1.observations
        = (Store.mk [] none).observations ∨
    (save_results_to_db 100 1 5 [cResult] (fun _ => true)
        (Store.mk [] none)).1.observations
        = (Store.mk [] none).observations ++ [cResult].map (toHotelPrice 1 5) :=
  (save_results_batching 100 1 5 [cResult] (fun _ => true) (Store.mk [] none)
    (by norm_num)).2.1 (by norm_num)

end HotelScanner
